import Mathlib

/-!
Verification of the `fp-examples` repository: a tutorial series refining an
"multiply an array of numbers by a constant and print each result" program,
ending in a lazy reactive pipeline built from `Rx.Observable.zip`,
`Rx.Observable.timer` and `subscribe`.

The JavaScript source is shallowly embedded below:
* `multiplyBy` embeds `multiplyBy (constant, numbers) = numbers.map(multiply(constant))`
  (ramda's `multiply` is curried numeric multiplication); JS numbers are modelled
  by `Int` — every number occurring in the repository is a small integer.
* `Pacing` / `traceRun` embed the activation semantics of
  `main (constant, numbers, control) = multiplyBy(constant, zip(numbers, control, (n,_) => n))`:
  the i-th input value is released when the i-th control tick arrives, and the
  zipped stream completes as soon as either source is exhausted.
* `Eff` is a writer-style embedding of sink side effects: the log collects, in
  order, the argument list of every invocation of the injected sink.
* `JSVal` / `jsMul` embed the dynamic behaviour of the JS `*` operator on the
  value shapes relevant here (integer numbers, integer-literal strings,
  `undefined`, `NaN`), to settle what `multiplyBy` does on non-numeric input.
-/

namespace FpExamples

/-- `multiplyBy (constant, numbers)` from `src/00-imperative/index.js` (and the
identical definition in the rxjs variant): `numbers.map(multiply(constant))`,
i.e. element-wise multiplication by the constant. -/
def multiplyBy (constant : Int) (numbers : List Int) : List Int :=
  numbers.map (fun n => constant * n)

/-- A pacing (control) source, abstracted by how many ticks it produces before
completing: `Rx.Observable.timer(0, 1000)` is `Pacing.inf` (a tick every second,
never completing); a finite control stream with `n` ticks is `Pacing.fin n`. -/
inductive Pacing
  | fin (n : Nat)
  | inf
deriving DecidableEq, Repr

/-- Consume one tick from the pacing source: `none` when the source is already
complete, otherwise the remaining source. -/
def Pacing.next : Pacing → Option Pacing
  | .fin 0 => none
  | .fin (n + 1) => some (.fin n)
  | .inf => some .inf

/-- Observable events of one activation of the zipped pipeline: a pacing tick,
an emission of a transformed value, or stream completion. -/
inductive Event
  | tick
  | emit (n : Int)
  | complete
deriving DecidableEq, Repr

/-- The cold pipeline description built by
`main (constant, numbers, control)` in the final rxjs variant:
`multiplyBy(constant, Rx.Observable.zip(numbers, control, (number, _) => number))`.
Building it performs no work; `subscribe` below runs it. -/
structure Pipeline where
  constant : Int
  inputs : List Int
  pacing : Pacing
deriving DecidableEq, Repr

/-- `main (constant, numbers, control)` from the rxjs variant: composes the
inputs, the pacing source and the transform into an inert pipeline value. -/
def main (constant : Int) (numbers : List Int) (control : Pacing) : Pipeline :=
  ⟨constant, numbers, control⟩

/-- One activation of the zipped pipeline, as the ordered trace of its events.
`Rx.Observable.zip` semantics: the i-th input is buffered until the i-th
control tick arrives, at which point the transformed value is emitted; the
zipped stream completes when the inputs are exhausted (remaining ticks are not
drained) or when the control source completes with no pair left to form. -/
def traceRun (constant : Int) : List Int → Pacing → List Event
  | [], _ => [.complete]
  | x :: xs, p =>
    match p.next with
    | none => [.complete]
    | some p' => .tick :: .emit (constant * x) :: traceRun constant xs p'

/-- The values a trace emits, in order. -/
def emitted (tr : List Event) : List Int :=
  tr.filterMap (fun e => match e with | .emit n => some n | _ => none)

/-- `app.subscribe(...)`: activating the pipeline produces its event trace. -/
def subscribe (pl : Pipeline) : List Event :=
  traceRun pl.constant pl.inputs pl.pacing

/-- C1 -- `multiplyBy` is exactly element-wise multiplication: the output has
the same length as the input, the i-th output is `f * xs[i]` for every index
(stated via `get?`, which also fixes the order), and the empty input yields the
empty output. -/
theorem multiplyBy_pointwise (f : Int) (xs : List Int) :
    (multiplyBy f xs).length = xs.length ∧
    (∀ i : Nat, (multiplyBy f xs)[i]? = xs[i]?.map (fun x => f * x)) ∧
    multiplyBy f [] = [] := by
  refine ⟨by simp [multiplyBy], fun i => ?_, rfl⟩
  simp [multiplyBy, List.getElem?_map]

/-- The input values the pacing source releases: an unbounded source releases
every input, a source with `n` ticks releases only the first `n`. -/
def released : Pacing → List Int → List Int
  | .inf, l => l
  | .fin n, l => l.take n

/-- Activation-trace shape lemma: a run is exactly the released inputs, each as
a tick immediately followed by the emission of its transformed value, and a
single final completion event. -/
lemma traceRun_shape (c : Int) :
    ∀ (inputs : List Int) (p : Pacing),
      traceRun c inputs p
        = ((released p inputs).map (fun x => [Event.tick, Event.emit (c * x)])).flatten
            ++ [Event.complete] := by
  intro inputs
  induction inputs with
  | nil =>
    intro p
    cases p with
    | inf => simp [traceRun, released]
    | fin n => simp [traceRun, released]
  | cons x xs ih =>
    intro p
    cases p with
    | inf =>
      simp only [traceRun, Pacing.next, released] at *
      simp [ih Pacing.inf, released]
    | fin n =>
      cases n with
      | zero => simp [traceRun, Pacing.next, released]
      | succ m =>
        simp only [traceRun, Pacing.next, released, List.take_succ_cons] at *
        simp [ih (Pacing.fin m), released]

/-- The values emitted along a trace of the canonical shape are exactly the
transformed released inputs. -/
lemma emitted_shape (c : Int) (l : List Int) :
    emitted ((l.map (fun x => [Event.tick, Event.emit (c * x)])).flatten
        ++ [Event.complete]) = multiplyBy c l := by
  induction l with
  | nil => simp [emitted, multiplyBy]
  | cons x xs ih =>
    simp only [List.map_cons, List.flatten, List.append_assoc]
    simpa [emitted, multiplyBy, List.filterMap_append, List.filterMap_cons]
      using ih

/-- Every activation trace ends with (exactly one) completion event. -/
lemma traceRun_getLast (c : Int) (inputs : List Int) (p : Pacing) :
    (traceRun c inputs p).getLast? = some Event.complete := by
  rw [traceRun_shape]
  simp

/-- C3 -- the pipeline joins inputs and pacing positionally: the trace of an
activation is the i-th tick immediately followed by the emission of the i-th
transformed input, for every i, and with an unbounded pacing source
(`timer(0, 1000)`) the run emits every transformed input and then completes —
no pacing tick beyond the last input appears in the trace. -/
theorem zip_positional_completes (c : Int) (inputs : List Int) :
    traceRun c inputs Pacing.inf
      = (inputs.map (fun x => [Event.tick, Event.emit (c * x)])).flatten
          ++ [Event.complete] ∧
    emitted (traceRun c inputs Pacing.inf) = multiplyBy c inputs ∧
    (traceRun c inputs Pacing.inf).getLast? = some Event.complete := by
  refine ⟨traceRun_shape c inputs Pacing.inf, ?_, traceRun_getLast c inputs Pacing.inf⟩
  rw [traceRun_shape]
  exact emitted_shape c inputs

/-- C10 -- with a pacing source of only `n` ticks, the activation emits exactly
the transforms of the first `n` inputs and then completes; the number of
emissions is the minimum of the input count and the tick count. -/
theorem fin_pacing_truncates (c : Int) (inputs : List Int) (n : Nat) :
    emitted (traceRun c inputs (Pacing.fin n)) = multiplyBy c (inputs.take n) ∧
    (emitted (traceRun c inputs (Pacing.fin n))).length = min inputs.length n ∧
    (traceRun c inputs (Pacing.fin n)).getLast? = some Event.complete := by
  have he : emitted (traceRun c inputs (Pacing.fin n)) = multiplyBy c (inputs.take n) := by
    rw [traceRun_shape]
    exact emitted_shape c (inputs.take n)
  refine ⟨he, ?_, traceRun_getLast c inputs (Pacing.fin n)⟩
  rw [he]
  simp [multiplyBy, Nat.min_comm]

/-- C5 -- concrete activations: factor 2 on [3,1,7] emits 6, 2, 14 then
completes; factor -1 on [0,1,2,3] emits 0, -1, -2, -3 then completes; factor
10 on [1] emits 10 then completes. -/
theorem concrete_activations :
    (emitted (subscribe (main 2 [3, 1, 7] Pacing.inf)) = [6, 2, 14] ∧
      (subscribe (main 2 [3, 1, 7] Pacing.inf)).getLast? = some Event.complete) ∧
    (emitted (subscribe (main (-1) [0, 1, 2, 3] Pacing.inf)) = [0, -1, -2, -3] ∧
      (subscribe (main (-1) [0, 1, 2, 3] Pacing.inf)).getLast? = some Event.complete) ∧
    (emitted (subscribe (main 10 [1] Pacing.inf)) = [10] ∧
      (subscribe (main 10 [1] Pacing.inf)).getLast? = some Event.complete) := by
  decide

/-- An argument value passed to a JavaScript callback during a run:
`Array.prototype.forEach(cb)` invokes `cb(element, index, array)`, so an
argument is an element value, an index, the array itself, or `undefined`
(what a missing argument reads as). -/
inductive CbArg
  | val (n : Int)
  | idx (i : Nat)
  | theArray (xs : List Int)
  | undef
deriving DecidableEq, Repr

/-- Writer-style embedding of sink side effects: a computation returns a value
together with the log of sink invocations it performed, each invocation
recorded as the full argument list the sink received. -/
structure Eff (α : Type) where
  log : List (List CbArg)
  val : α

/-- A computation with no side effect (a pure JS expression). -/
def Eff.pure (a : α) : Eff α := ⟨[], a⟩

/-- Sequencing of two effectful computations: logs concatenate in order. -/
def Eff.bind (x : Eff α) (f : α → Eff β) : Eff β :=
  let y := f x.val
  ⟨x.log ++ y.log, y.val⟩

/-- The injected sink (`console.log` in the repository): invoking it records
the exact argument list it was called with. -/
def theSink : List CbArg → Eff Unit := fun args => ⟨[args], ()⟩

/-- ramda's `unary (fn) = x => fn(x)` (also handwritten in the tutorial):
however many arguments the wrapper receives, it forwards exactly one — the
first, or `undefined` if there was none. -/
def unary (fn : List CbArg → Eff Unit) : List CbArg → Eff Unit :=
  fun args => fn [args.headD CbArg.undef]

/-- `Array.prototype.forEach`: invokes the callback once per element, in order,
with the three arguments `(element, index, array)`. `arr` is the whole array,
`i` the index of the first element of the remaining suffix `xs`. -/
def forEachFrom (arr : List Int) (cb : List CbArg → Eff Unit) :
    List Int → Nat → Eff Unit
  | [], _ => Eff.pure ()
  | x :: xs, i =>
    Eff.bind (cb [CbArg.val x, CbArg.idx i, CbArg.theArray arr])
      (fun _ => forEachFrom arr cb xs (i + 1))

/-- `xs.forEach(cb)`. -/
def jsForEach (xs : List Int) (cb : List CbArg → Eff Unit) : Eff Unit :=
  forEachFrom xs cb xs 0

/-- The body of `dirty` from `src/00-imperative/index.js`:
`multiplyBy(constant, numbers).forEach(print)`. -/
def dirty (constant : Int) (numbers : List Int)
    (print : List CbArg → Eff Unit) : Eff Unit :=
  jsForEach (multiplyBy constant numbers) print

/-- `main (print)` from `src/00-imperative/index.js`: binds `constant = 2` and
`numbers = [3, 1, 7]`, then returns the `dirty` thunk without calling it.
Each source statement is embedded as an `Eff` step; no step invokes the sink. -/
def main00 (print : List CbArg → Eff Unit) : Eff (Unit → Eff Unit) :=
  Eff.bind (Eff.pure (2 : Int)) (fun constant =>
    Eff.bind (Eff.pure ([3, 1, 7] : List Int)) (fun numbers =>
      Eff.pure (fun _ => dirty constant numbers print)))

/-- `main (constant, numbers, control)` of the rxjs variant embedded as an
effectful computation: it only constructs the `Pipeline` description
(`zip` and `map` build cold observables), performing no sink call. -/
def mainRx (constant : Int) (numbers : List Int) (control : Pacing) :
    Eff Pipeline :=
  Eff.bind (Eff.pure (main constant numbers control)) Eff.pure

/-- Sink log of running `forEachFrom` with the `unary`-wrapped sink. -/
lemma forEachFrom_unary_log (arr : List Int) :
    ∀ (xs : List Int) (i : Nat),
      (forEachFrom arr (unary theSink) xs i).log
        = xs.map (fun v => [CbArg.val v]) := by
  intro xs
  induction xs with
  | nil => intro i; rfl
  | cons x rest ih =>
    intro i
    simp [forEachFrom, Eff.bind, unary, theSink, List.headD, ih (i + 1)]

/-- C2 -- building a pipeline has no observable effect: `main` of the
imperative variant (for every sink) and `main` of the rxjs variant invoke the
sink zero times at build time; only calling the returned `dirty` thunk invokes
the sink — once per value, as witnessed by the nonempty activation log. -/
theorem build_no_effect :
    (∀ print : List CbArg → Eff Unit, (main00 print).log = []) ∧
    (∀ (c : Int) (ns : List Int) (p : Pacing), (mainRx c ns p).log = []) ∧
    (((main00 (unary theSink)).val ()).log
        = [[CbArg.val 6], [CbArg.val 2], [CbArg.val 14]]) := by
  refine ⟨fun print => rfl, fun c ns p => rfl, ?_⟩
  show (dirty 2 [3, 1, 7] (unary theSink)).log = _
  rw [dirty, jsForEach, forEachFrom_unary_log]
  rfl

/-- C8 -- the activation boundary wraps the sink in `unary`, so although
`forEach` calls its callback with three arguments `(value, index, array)`,
the sink itself is invoked exactly once per emitted value with exactly one
argument: that value — no index, no containing array. -/
theorem sink_called_unary (c : Int) (ns : List Int) :
    (dirty c ns (unary theSink)).log
      = (multiplyBy c ns).map (fun v => [CbArg.val v]) := by
  rw [dirty, jsForEach, forEachFrom_unary_log]

/-- A JavaScript heap of arrays: an array value is a reference (index) into
the store. Models that JS arrays are passed by reference, so mutation of the
input array by `multiplyBy` would be observable in the store. -/
structure Store where
  arrays : List (List Int)
deriving DecidableEq, Repr

/-- Dereference an array (a valid reference in any run of the repository). -/
def Store.read (σ : Store) (r : Nat) : List Int :=
  σ.arrays.getD r []

/-- Allocate a fresh array, returning its reference: what a JS array literal
or `Array.prototype.map` (which always builds a new array) does. -/
def Store.alloc (σ : Store) (xs : List Int) : Nat × Store :=
  (σ.arrays.length, ⟨σ.arrays ++ [xs]⟩)

/-- `multiplyBy` against the heap: `numbers.map(byConstant)` reads the input
array and allocates a new array holding the mapped values — the only store
operation performed. -/
def multiplyByRef (c : Int) (r : Nat) (σ : Store) : Nat × Store :=
  σ.alloc (multiplyBy c (σ.read r))

/-- C7 -- `multiplyBy` never mutates its input and touches no shared state:
the store after the call is exactly the old store plus one freshly allocated
result array, every pre-existing array (the input included) is unchanged, and
the returned reference holds the element-wise products. -/
theorem multiplyBy_no_mutation (c : Int) (r : Nat) (σ : Store) :
    ((multiplyByRef c r σ).2).arrays = σ.arrays ++ [multiplyBy c (σ.read r)] ∧
    ((multiplyByRef c r σ).2).arrays.take σ.arrays.length = σ.arrays ∧
    ((multiplyByRef c r σ).2).read (multiplyByRef c r σ).1
      = multiplyBy c (σ.read r) := by
  refine ⟨rfl, ?_, ?_⟩
  · show (σ.arrays ++ [multiplyBy c (σ.read r)]).take σ.arrays.length = σ.arrays
    simp
  · show Store.read ⟨σ.arrays ++ [multiplyBy c (σ.read r)]⟩ σ.arrays.length = _
    simp [Store.read]

/-- A timed activation of the pipeline under `Rx.Observable.timer` pacing:
the i-th value is emitted at wall-clock time `sched i` (the arrival time of
the i-th tick) with the transformed value. -/
def timedRun (c : Int) : List Int → (Nat → Nat) → List (Nat × Int)
  | [], _ => []
  | x :: xs, sched => (sched 0, c * x) :: timedRun c xs (fun i => sched (i + 1))

/-- Tick schedule of `Rx.Observable.timer(0, period)` for a subscription made
at wall-clock time `start`: the timer restarts per subscription, so tick `i`
arrives at `start + period * i`. -/
def schedFrom (start period i : Nat) : Nat :=
  start + period * i

/-- Subscribing to the cold pipeline at wall-clock time `start` with a fresh
`timer(0, period)` pacing source: the timed emissions of that activation. -/
def subscribeTimed (pl : Pipeline) (start period : Nat) : List (Nat × Int) :=
  timedRun pl.constant pl.inputs (schedFrom start period)

/-- The values of a timed run do not depend on the tick schedule. -/
lemma timedRun_values (c : Int) :
    ∀ (ns : List Int) (sched : Nat → Nat),
      (timedRun c ns sched).map Prod.snd = multiplyBy c ns := by
  intro ns
  induction ns with
  | nil => intro sched; rfl
  | cons x xs ih =>
    intro sched
    simpa [timedRun, multiplyBy] using ih (fun i => sched (i + 1))

/-- C4 -- activating the same cold pipeline description twice is
deterministic: two subscriptions, each starting its own timer at a possibly
different wall-clock time, emit the identical sequence of values (timestamps
may differ, values may not), and that sequence is the element-wise transform
of the inputs. -/
theorem cold_subscribe_deterministic (c : Int) (ns : List Int) (p : Pacing)
    (t1 t2 period : Nat) :
    (subscribeTimed (main c ns p) t1 period).map Prod.snd
      = (subscribeTimed (main c ns p) t2 period).map Prod.snd ∧
    (subscribeTimed (main c ns p) t1 period).map Prod.snd = multiplyBy c ns := by
  have h : ∀ t : Nat,
      (subscribeTimed (main c ns p) t period).map Prod.snd = multiplyBy c ns :=
    fun t => timedRun_values c ns (schedFrom t period)
  exact ⟨(h t1).trans (h t2).symm, h t1⟩

/-- A JavaScript dynamic value of the shapes relevant to the transform:
an (integer) number, `NaN`, a string, or `undefined`. -/
inductive JSVal
  | num (n : Int)
  | nan
  | str (s : String)
  | undef
deriving DecidableEq, Repr

/-- The numeric value of a decimal digit character, `none` otherwise. -/
def digitVal? (ch : Char) : Option Nat :=
  if '0' ≤ ch ∧ ch ≤ '9' then some (ch.toNat - '0'.toNat) else none

/-- The value of a nonempty all-digit character sequence, `none` otherwise. -/
def digitsVal : List Char → Option Nat
  | [] => none
  | cs =>
    cs.foldl
      (fun acc? ch => acc?.bind (fun acc => (digitVal? ch).map (fun d => 10 * acc + d)))
      (some 0)

/-- Parse a (possibly negated) integer-literal string. -/
def strToInt? (s : String) : Option Int :=
  match s.data with
  | [] => none
  | ch :: rest =>
    if ch = '-' then (digitsVal rest).map (fun n => -(n : Int))
    else (digitsVal (ch :: rest)).map (fun n => (n : Int))

/-- JavaScript `ToNumber`, restricted to the value shapes in scope: numbers
unchanged; the empty string is `0`; an integer-literal string is its value
(the repository's numbers are all integers, so float literals are out of
scope); any other string, and `undefined`, convert to `NaN`. -/
def jsToNumber : JSVal → JSVal
  | .num n => .num n
  | .nan => .nan
  | .str s =>
    if s.isEmpty then .num 0
    else match strToInt? s with
      | some n => .num n
      | none => .nan
  | .undef => .nan

/-- The JavaScript `*` operator (ramda's `multiply` is `(a, b) => a * b`):
both operands are converted with `ToNumber`, the product is `NaN` if either
conversion fails. `*` never throws on these values. -/
def jsMul (a b : JSVal) : JSVal :=
  match jsToNumber a, jsToNumber b with
  | .num x, .num y => .num (x * y)
  | _, _ => .nan

/-- A JavaScript exception. -/
inductive JSErr
  | typeError
deriving DecidableEq, Repr

/-- `multiplyBy` on dynamic values: `numbers.map(multiply(constant))`.
`Except JSErr` is the JS exception channel of the call; neither
`Array.prototype.map` nor `*` throws on these values, so the call always
returns normally with the mapped list. -/
def multiplyByJS (c : JSVal) (ns : List JSVal) : Except JSErr (List JSVal) :=
  .ok (ns.map (fun v => jsMul c v))

/-- C6 counterexample -- on the non-numeric element `"3"` with factor `2`,
`multiplyBy` does not surface any error: it returns normally, and the element
is silently coerced to a number, yielding `6`. -/
theorem nonNumeric_not_errored :
    multiplyByJS (JSVal.num 2) [JSVal.str "3"] = Except.ok [JSVal.num 6] ∧
    jsMul (JSVal.num 2) (JSVal.str "3") = JSVal.num 6 := by
  exact ⟨congrArg Except.ok (by decide), by decide⟩

/-- C6 amended -- the transform never surfaces an error on non-numeric
elements: every call returns normally with one output per input, each output
the JS product of the factor and the element, where numeric strings are
silently coerced to their numeric value and values with no numeric
interpretation yield `NaN`. -/
theorem nonNumeric_coerced (c : JSVal) (vs : List JSVal) :
    (∃ out, multiplyByJS c vs = Except.ok out ∧ out.length = vs.length ∧
      ∀ i : Nat, out[i]? = vs[i]?.map (fun v => jsMul c v)) ∧
    jsMul (JSVal.num 2) (JSVal.str "3") = JSVal.num 6 ∧
    jsMul (JSVal.num 2) (JSVal.str "abc") = JSVal.nan ∧
    jsMul (JSVal.num 2) JSVal.undef = JSVal.nan := by
  exact ⟨⟨vs.map (fun v => jsMul c v), rfl, by simp, fun i => by simp⟩,
    by decide, by decide, by decide⟩

/-- C9 -- the multiplicative algebra of scaling: multiplying by `1` is the
identity, and multiplying by `b` then by `a` is multiplying by `a * b`. -/
theorem multiplyBy_algebra (xs : List Int) :
    multiplyBy 1 xs = xs ∧
    ∀ a b : Int, multiplyBy a (multiplyBy b xs) = multiplyBy (a * b) xs := by
  constructor
  · simp [multiplyBy]
  · intro a b
    simp [multiplyBy, Function.comp, mul_assoc]

end FpExamples
